import Mathlib

/-!
Verification of the othelgo repository's specification against its code.

The repository provides under `src/`:
  * `pkg/common/messages.go` — the wire protocol (message types, the
    `actionToMessage` registry, `AnyMessage.UnmarshalJSON`) and the client
    game scene (`Game.Tick`, `Game.OnTerminalEvent`).
  * a server BDD test suite (`server_test`) that pins the canonical opening
    board (`buildBoard`, `newGameBoard`), the scenario-B move expectations,
    and `countDisks`.

The board engine itself (`common.ApplyMove`, `common.KeepScore`,
`common.GameOver`) and the server dispatcher/matchmaking handlers are not
among the provided sources; only their tests and callers are.  Those parts
are modelled from the specification (each such definition carries a doc
comment starting with `Modelled from the spec:`), and settled claims about
them are cross-validated against the concrete boards that the test suite,
which is part of the sources, pins down.
-/

/-- `const BoardSize = 8` from `pkg/common/messages.go`. -/
abbrev BoardSize : Nat := 8

/-- `type Board [BoardSize][BoardSize]Disk` from `pkg/common/messages.go`,
indexed as `board[x][y]`; a cell holds 0 (empty), 1 (player 1) or 2
(player 2). -/
abbrev Board := Fin 8 → Fin 8 → Nat

/-- Reading a board cell at signed coordinates; out-of-range reads are
guarded (the engine checks the range before any read, see `legalMove`). -/
def cell (b : Board) (x y : Int) : Nat :=
  if h : 0 ≤ x ∧ x < 8 ∧ 0 ≤ y ∧ y < 8 then
    b ⟨x.toNat, by omega⟩ ⟨y.toNat, by omega⟩
  else 0

/-- Modelled from the spec: the opposing disk color (two-valued enum). -/
def other (c : Nat) : Nat := if c = 1 then 2 else 1

/-- Modelled from the spec (`applyMove`, missing from src): walk from
`(x, y)` in direction `(dx, dy)`;  return `some n` when a contiguous run of
`n` opposing disks is bounded by a disk of color `c`, and `none` when the
walk leaves the board or meets an empty cell first.  The fuel bounds the
walk by the board width. -/
def scanLine (b : Board) (c : Nat) : Nat → Int → Int → Int → Int → Option Nat
  | 0, _, _, _, _ => none
  | fuel + 1, x, y, dx, dy =>
    if 0 ≤ x + dx ∧ x + dx < 8 ∧ 0 ≤ y + dy ∧ y + dy < 8 then
      let v := cell b (x + dx) (y + dy)
      if v = other c then
        (scanLine b c fuel (x + dx) (y + dy) dx dy).map (· + 1)
      else if v = c then some 0
      else none
    else none

/-- Modelled from the spec: number of opposing disks flipped in direction
`(dx, dy)` when `c` plays at `(x, y)`; `0` when the direction does not
qualify (no contiguous opposing line bounded by a same-color disk). -/
def lineLen (b : Board) (x y dx dy : Int) (c : Nat) : Nat :=
  (scanLine b c 8 x y dx dy).getD 0

/-- The 8 directions from a cell. -/
def directions : List (Int × Int) :=
  [(-1, -1), (-1, 0), (-1, 1), (0, -1), (0, 1), (1, -1), (1, 0), (1, 1)]

/-- Modelled from the spec (`applyMove`, missing from src): a move is legal
only if the target is in range and empty and at least one contiguous line of
the opposing color, bounded by a color-matching disk, exists in one of the 8
directions. -/
def legalMove (b : Board) (x y : Int) (c : Nat) : Bool :=
  decide (0 ≤ x ∧ x < 8 ∧ 0 ≤ y ∧ y < 8) &&
  decide (cell b x y = 0) &&
  directions.any (fun d => decide (lineLen b x y d.1 d.2 c ≠ 0))

/-- Modelled from the spec: cell `(i, j)` lies strictly between `(x, y)` and
the bounding same-color disk along direction `(dx, dy)`. -/
def flippedInDir (b : Board) (x y : Int) (c : Nat) (dx dy i j : Int) : Bool :=
  (List.range (lineLen b x y dx dy c)).any fun k =>
    decide (i = x + ((k : Int) + 1) * dx) && decide (j = y + ((k : Int) + 1) * dy)

/-- Modelled from the spec: cell `(i, j)` is on a qualifying line of the move
`(x, y, c)`, strictly between the placed disk and its bounding disk. -/
def flipped (b : Board) (x y : Int) (c : Nat) (i j : Int) : Bool :=
  directions.any fun d => flippedInDir b x y c d.1 d.2 i j

/-- Modelled from the spec (`applyMove`, missing from src):
`applyMove(board, x, y, color) → (updatedBoard, changed)`.  On a legal move
it flips every disk along each qualifying line and places the new disk;
otherwise it returns the board unchanged with `changed = false`. -/
def applyMove (b : Board) (x y : Int) (c : Nat) : Board × Bool :=
  if legalMove b x y c then
    (fun i j =>
      if (i.val : Int) = x ∧ (j.val : Int) = y then c
      else if flipped b x y c (i.val : Int) (j.val : Int) then c
      else b i j, true)
  else (b, false)

/-- All in-range coordinates, in the stable row-major enumeration order used
by the difficulty-0 opponent. -/
def allCoords : List (Int × Int) :=
  (List.range 8).flatMap fun x => (List.range 8).map fun y => ((x : Int), (y : Int))

/-- Modelled from the spec (`chooseMove`, Opponent Strategy, missing from
src): at difficulty 0 the first legal move found in a stable enumeration
order; `none` when no legal move exists. -/
def chooseMove (b : Board) (c : Nat) : Option (Int × Int) :=
  allCoords.findSome? fun p => if legalMove b p.1 p.2 c then some p else none

/-- Modelled from the spec: whether color `c` has at least one legal move. -/
def hasMove (b : Board) (c : Nat) : Bool :=
  (chooseMove b c).isSome

/-- Modelled from the spec: after a move by `c`, the turn passes to the other
color if that color has at least one legal move, otherwise the same color
moves again (the pass rule). -/
def nextTurn (b : Board) (c : Nat) : Nat :=
  if hasMove b (other c) then other c else c

/-- Modelled from the spec (`gameOver`, missing from src): true when neither
color has any legal move remaining. -/
def gameOver (b : Board) : Bool :=
  !hasMove b 1 && !hasMove b 2

/-- Modelled from the spec (`keepScore`, missing from src): counts disks per
color. -/
def keepScore (b : Board) : Nat × Nat :=
  ((allCoords.filter fun p => decide (cell b p.1 p.2 = 1)).length,
   (allCoords.filter fun p => decide (cell b p.1 p.2 = 2)).length)

/-- `countDisks` from the server test suite: the total number of disks,
`p1 + p2` of `KeepScore`. -/
def countDisks (b : Board) : Nat :=
  (keepScore b).1 + (keepScore b).2

/-- Setting one board cell, as the test's `buildBoard` loop body
`board[x][y] = player` does (inputs are in range). -/
def setCell (b : Board) (x y v : Nat) : Board :=
  fun i j => if i.val = x ∧ j.val = y then v else b i j

/-- `buildBoard` from the server test suite: place player 1's moves, then
player 2's. -/
def buildBoard (p1 p2 : List (Nat × Nat)) : Board :=
  let b1 := p1.foldl (fun b m => setCell b m.1 m.2 1) (fun _ _ => 0)
  p2.foldl (fun b m => setCell b m.1 m.2 2) b1

/-- `newGameBoard` from the server test suite:
`buildBoard([]move{{3, 3}, {4, 4}}, []move{{3, 4}, {4, 3}})`. -/
def newGameBoard : Board :=
  buildBoard [(3, 3), (4, 4)] [(3, 4), (4, 3)]

/-- The expected board of scenario B from the server test suite:
`buildBoard([]move{{3, 3}, {4, 4}, {3, 4}, {2, 4}}, []move{{4, 3}})`. -/
def expectedBoardB : Board :=
  buildBoard [(3, 3), (4, 4), (3, 4), (2, 4)] [(4, 3)]

/-- Modelled from the spec: the durable per-game state the engine acts on —
the board and whose turn it is (tracked in the Game record, not derived from
the board). -/
structure GameState where
  board : Board
  turn : Nat

/-- Modelled from the spec (the engine's single validation gate, missing
from src): a move by the wrong color is rejected without mutating the board;
otherwise `applyMove` is applied, and on success the turn is updated by the
pass rule. -/
def placeDisk (g : GameState) (x y : Int) (c : Nat) : GameState × Bool :=
  if c ≠ g.turn then (g, false)
  else
    let r := applyMove g.board x y c
    if r.2 then ({ board := r.1, turn := nextTurn r.1 c }, true)
    else (g, false)

/-- Modelled from the spec (the server's new-game handler, missing from
src): a fresh solo game starts from the canonical opening board pinned by
the test suite's `newGameBoard`, with color 1 to move; the difficulty only
parameterizes the opponent strategy. -/
def startSoloGame (_difficulty : Nat) : GameState :=
  { board := newGameBoard, turn := 1 }

/-- The scenario-B move of the test suite: color 1 places a disk at (2,4) on
the fresh solo board. -/
def scenarioB : GameState × Bool :=
  placeDisk (startSoloGame 0) 2 4 1

/-- The closed set of message variants registered in `actionToMessage` in
`pkg/common/messages.go`. -/
inductive MessageVariant where
  | baseMessage
  | hostGameMessage
  | startSoloGameMessage
  | joinGameMessage
  | joinedMessage
  | leaveGameMessage
  | gameOverMessage
  | openGamesMessage
  | placeDiskMessage
  | updateBoardMessage
  | errorMessage
  | decorateMessage
deriving DecidableEq

/-- `var actionToMessage = map[string]interface{}{...}` from
`pkg/common/messages.go`: the fixed recognized set of action discriminators
and the message variant registered for each. -/
def actionToMessage (a : String) : Option MessageVariant :=
  match a with
  | "hello" => some .baseMessage
  | "hostGame" => some .hostGameMessage
  | "startSoloGame" => some .startSoloGameMessage
  | "joinGame" => some .joinGameMessage
  | "joined" => some .joinedMessage
  | "leaveGame" => some .leaveGameMessage
  | "gameOver" => some .gameOverMessage
  | "listOpenGames" => some .baseMessage
  | "openGames" => some .openGamesMessage
  | "placeDisk" => some .placeDiskMessage
  | "updateBoard" => some .updateBoardMessage
  | "error" => some .errorMessage
  | "decorate" => some .decorateMessage
  | _ => none

/-- The two explicit decode failures of `AnyMessage.UnmarshalJSON`:
`fmt.Errorf("invalid message %q", ...)` for a missing or empty action and
`fmt.Errorf("unsupported message action %q", ...)` for an unknown one. -/
inductive DecodeError where
  | invalidMessage
  | unsupportedAction (action : String)
deriving DecidableEq

/-- `type AnyMessage struct { Action string; Message interface{} }` from
`pkg/common/messages.go`; the parsed payload is abstracted to its variant. -/
structure AnyMessage where
  action : String
  message : MessageVariant
deriving DecidableEq

/-- `AnyMessage.UnmarshalJSON` from `pkg/common/messages.go`, at the
discriminator level: the JSON layer's extraction of the `"action"` field is
abstracted to the string argument (a missing field yields Go's zero value,
the empty string).  An empty action fails with `invalidMessage`, an action
outside the registry fails with `unsupportedAction`, and otherwise the
registered variant is selected. -/
def unmarshalJSON (a : String) : Except DecodeError AnyMessage :=
  if a = "" then .error .invalidMessage
  else
    match actionToMessage a with
    | none => .error (.unsupportedAction a)
    | some v => .ok ⟨a, v⟩

/-- An outbound `updateBoard` message addressed to a connection, carrying
the full board and whose turn it is (`UpdateBoardMessage` of
`pkg/common/messages.go`). -/
structure OutMsg where
  connID : String
  board : Board
  player : Nat

/-- Modelled from the spec: the dispatcher's per-connection solo session —
the originating connection and the game record. -/
structure SoloSession where
  connID : String
  state : GameState

/-- The human player's color in a solo game (color 1 moves first). -/
def humanColor : Nat := 1

/-- The AI's color in a solo game. -/
def aiColor : Nat := 2

/-- Modelled from the spec: the AI's load-mutate-store step — apply the
opponent strategy's chosen move, if any. -/
def aiStep (g : GameState) : GameState :=
  match chooseMove g.board aiColor with
  | some m => (placeDisk g m.1 m.2 aiColor).1
  | none => g

/-- Modelled from the spec (the server dispatcher, missing from src): handle
a solo `placeDisk` action.  An illegal move emits no board update; a legal
one emits the human's resulting board to the originating connection and,
if it is now the AI's turn, additionally invokes the opponent strategy and
emits the AI's resulting board to the same connection, in that order. -/
def handleSoloPlaceDisk (s : SoloSession) (x y : Int) : SoloSession × List OutMsg :=
  let r := placeDisk s.state x y humanColor
  if r.2 = false then (s, [])
  else if r.1.turn = aiColor then
    match chooseMove r.1.board aiColor with
    | some m =>
      let r2 := (placeDisk r.1 m.1 m.2 aiColor).1
      (⟨s.connID, r2⟩,
        [⟨s.connID, r.1.board, r.1.turn⟩, ⟨s.connID, r2.board, r2.turn⟩])
    | none => (⟨s.connID, r.1⟩, [⟨s.connID, r.1.board, r.1.turn⟩])
  else (⟨s.connID, r.1⟩, [⟨s.connID, r.1.board, r.1.turn⟩])

/-- Modelled from the spec: a multiplayer game record — host connection,
board, whose turn, the opponent slot, and the open flag. -/
structure MPGame where
  host : String
  board : Board
  turn : Nat
  opponent : Option String
  isOpen : Bool

/-- Modelled from the spec (the host-game handler, missing from src): a host
creates a fresh open multiplayer game with the canonical opening board and
color 1 to move, occupying color 1 itself. -/
def hostGame (conn : String) : MPGame :=
  { host := conn, board := newGameBoard, turn := 1, opponent := none, isOpen := true }

/-- Modelled from the spec (the join-game handler, missing from src):
joining an open game with a free slot assigns the joining connection the
remaining color, marks the game closed, and notifies both participants with
the current board and turn; otherwise the join fails without mutating the
game (the error message to the joiner is abstracted away). -/
def handleJoin (g : MPGame) (joiner : String) : MPGame × List OutMsg :=
  if g.isOpen = true ∧ g.opponent = none then
    ({ g with opponent := some joiner, isOpen := false },
      [⟨g.host, g.board, g.turn⟩, ⟨joiner, g.board, g.turn⟩])
  else (g, [])

/-- The client scene state of `Game` in the scenes file: the local player's
color and the current board (cursor, scores and confetti are rendering
state). -/
structure GameScene where
  player : Nat
  board : Board

/-- `Game.Tick` from the scenes file: returns false while the game is not
over; once it is over, returns false for the losing side (`p2 > p1` for
player 1, `p1 > p2` for player 2) and otherwise advances the confetti and
returns true.  The confetti side effect is dropped; only the return value is
modelled. -/
def tick (g : GameScene) : Bool :=
  if gameOver g.board = false then false
  else if g.player = 1 ∧ (keepScore g.board).2 > (keepScore g.board).1 then false
  else if g.player = 2 ∧ (keepScore g.board).1 > (keepScore g.board).2 then false
  else true

/-- The local player's disk count as shown by `KeepScore`. -/
def myScore (g : GameScene) : Nat :=
  if g.player = 1 then (keepScore g.board).1 else (keepScore g.board).2

/-- The opponent's disk count as shown by `KeepScore`. -/
def oppScore (g : GameScene) : Nat :=
  if g.player = 1 then (keepScore g.board).2 else (keepScore g.board).1

/-- A full tied board: one half of the columns player 1, the other half
player 2 (used to exercise `tick` on a tied final score). -/
def tieBoard : Board :=
  fun i _ => if i.val < 4 then 1 else 2

example : (applyMove newGameBoard 2 4 1).2 = true := by decide
example : (applyMove newGameBoard 2 4 1).1 = expectedBoardB := by decide
example : countDisks expectedBoardB = 5 := by decide
example : chooseMove expectedBoardB 2 = some (2, 3) := by decide
example : gameOver newGameBoard = false := by decide
example : scenarioB.1.board = expectedBoardB ∧ scenarioB.1.turn = 2 := by decide
example : gameOver tieBoard = true ∧ keepScore tieBoard = (32, 32) := by decide
example : tick ⟨1, tieBoard⟩ = true ∧ tick ⟨2, tieBoard⟩ = true := by decide
example : (handleSoloPlaceDisk ⟨"c1", startSoloGame 0⟩ 2 4).2.length = 2 := by decide
example : unmarshalJSON "foo" = .error (.unsupportedAction "foo") := rfl
example : unmarshalJSON "placeDisk" = .ok ⟨"placeDisk", .placeDiskMessage⟩ := rfl

/-! ### Helper lemmas -/

theorem legalMove_inRange {b : Board} {x y : Int} {c : Nat}
    (h : legalMove b x y c = true) : 0 ≤ x ∧ x < 8 ∧ 0 ≤ y ∧ y < 8 := by
  simp only [legalMove, Bool.and_eq_true, decide_eq_true_eq] at h
  exact h.1.1

theorem legalMove_empty {b : Board} {x y : Int} {c : Nat}
    (h : legalMove b x y c = true) : cell b x y = 0 := by
  simp only [legalMove, Bool.and_eq_true, decide_eq_true_eq] at h
  exact h.1.2

theorem applyMove_changed {b : Board} {x y : Int} {c : Nat}
    (h : (applyMove b x y c).2 = true) : legalMove b x y c = true := by
  by_cases hl : legalMove b x y c = true
  · exact hl
  · simp [applyMove, hl] at h

theorem findSome?_filter_isSome {α : Type} (p : α → Bool) (l : List α) :
    (l.findSome? fun q => if p q then some q else none).isSome = true ↔
      ∃ q ∈ l, p q = true := by
  induction l with
  | nil => simp [List.findSome?]
  | cons a l ih =>
    by_cases h : p a = true
    · simp [List.findSome?_cons, h]
    · simp [List.findSome?_cons, h, ih]

theorem mem_allCoords {x y : Int} (h : 0 ≤ x ∧ x < 8 ∧ 0 ≤ y ∧ y < 8) :
    (x, y) ∈ allCoords := by
  obtain ⟨h1, h2, h3, h4⟩ := h
  interval_cases x <;> interval_cases y <;> decide

theorem hasMove_iff (b : Board) (c : Nat) :
    hasMove b c = true ↔ ∃ x y, legalMove b x y c = true := by
  rw [hasMove, chooseMove, findSome?_filter_isSome]
  constructor
  · rintro ⟨q, _, hq⟩
    exact ⟨q.1, q.2, hq⟩
  · rintro ⟨x, y, hxy⟩
    exact ⟨(x, y), mem_allCoords (legalMove_inRange hxy), hxy⟩

theorem other_ne (c : Nat) : other c ≠ c := by
  unfold other
  split <;> omega

theorem placeDisk_success {g : GameState} {x y : Int} {c : Nat}
    (h : (placeDisk g x y c).2 = true) :
    (placeDisk g x y c).1.board = (applyMove g.board x y c).1 ∧
    (placeDisk g x y c).1.turn = nextTurn (applyMove g.board x y c).1 c := by
  by_cases hc : c ≠ g.turn
  · simp [placeDisk, hc] at h
  · by_cases hr : (applyMove g.board x y c).2 = true
    · simp [placeDisk, hc, hr]
    · simp [placeDisk, hc, hr] at h

/-! ### Claim theorems -/

/-- **C1**: for every board `B` and every move `(x, y, color)` that
`applyMove` accepts as legal (`changed = true`), the returned board has cell
`(x, y)` equal to `color`, every disk on each flipped line strictly between
`(x, y)` and its bounding same-color disk is now `color`, and every cell not
on one of those lines is unchanged from `B`. -/
theorem applyMove_postcondition (b : Board) (x y : Int) (c : Nat)
    (h : (applyMove b x y c).2 = true) :
    cell (applyMove b x y c).1 x y = c ∧
    (∀ i j : Fin 8, flipped b x y c (i.val : Int) (j.val : Int) = true →
      (applyMove b x y c).1 i j = c) ∧
    (∀ i j : Fin 8, ¬((i.val : Int) = x ∧ (j.val : Int) = y) →
      flipped b x y c (i.val : Int) (j.val : Int) = false →
      (applyMove b x y c).1 i j = b i j) := by
  have hl : legalMove b x y c = true := applyMove_changed h
  have hR : 0 ≤ x ∧ x < 8 ∧ 0 ≤ y ∧ y < 8 := legalMove_inRange hl
  have hA : (applyMove b x y c).1 = fun i j =>
      if (i.val : Int) = x ∧ (j.val : Int) = y then c
      else if flipped b x y c (i.val : Int) (j.val : Int) then c
      else b i j := by
    simp [applyMove, hl]
  refine ⟨?_, ?_, ?_⟩
  · rw [hA]
    unfold cell
    rw [dif_pos hR]
    have hx : ((x.toNat : Nat) : Int) = x := Int.toNat_of_nonneg hR.1
    have hy : ((y.toNat : Nat) : Int) = y := Int.toNat_of_nonneg hR.2.2.1
    simp only []
    rw [if_pos ⟨hx, hy⟩]
  · intro i j hf
    rw [hA]
    by_cases hij : (i.val : Int) = x ∧ (j.val : Int) = y
    · simp [hij]
    · simp [hij, hf]
  · intro i j hij hf
    rw [hA]
    simp [hij, hf]

/-- Witness for C1: the scenario-B move is legal and places color 1 at
`(2, 4)`. -/
theorem applyMove_postcondition_witness :
    (applyMove newGameBoard 2 4 1).2 = true ∧
    cell (applyMove newGameBoard 2 4 1).1 2 4 = 1 :=
  ⟨by decide, (applyMove_postcondition newGameBoard 2 4 1 (by decide)).1⟩

/-- **C2**: `applyMove` is a no-op (`changed = false`, board exactly
unchanged, no fatal error — it is a total function) for every illegal
target, and in particular for any target that is non-empty, that has no
flanking line in any of the 8 directions, or that is out of the 8×8 range;
and the engine gate rejects a move by a color that is not the color whose
turn it is without mutating the game state at all. -/
theorem applyMove_illegal_noop (b : Board) (x y : Int) (c : Nat) (g : GameState) :
    (legalMove b x y c = false → applyMove b x y c = (b, false)) ∧
    (cell b x y ≠ 0 → applyMove b x y c = (b, false)) ∧
    ((∀ d ∈ directions, lineLen b x y d.1 d.2 c = 0) → applyMove b x y c = (b, false)) ∧
    (¬(0 ≤ x ∧ x < 8 ∧ 0 ≤ y ∧ y < 8) → applyMove b x y c = (b, false)) ∧
    (c ≠ g.turn → placeDisk g x y c = (g, false)) := by
  refine ⟨?_, ?_, ?_, ?_, ?_⟩
  · intro hl
    simp [applyMove, hl]
  · intro hcell
    have hl : legalMove b x y c = false := by
      simp [legalMove, hcell]
    simp [applyMove, hl]
  · intro hlines
    have hany : (directions.any fun d => decide (lineLen b x y d.1 d.2 c ≠ 0)) = false := by
      rw [List.any_eq_false]
      intro d hd
      simpa using hlines d hd
    have hl : legalMove b x y c = false := by
      unfold legalMove
      rw [hany, Bool.and_false]
    simp [applyMove, hl]
  · intro hrange
    have hl : legalMove b x y c = false := by
      simp [legalMove, hrange]
    simp [applyMove, hl]
  · intro hc
    simp [placeDisk, hc]

/-- Witness for C2: on the opening board, placing on the occupied cell
`(3, 3)` is rejected without mutation, the out-of-range target `(-1, 0)` is
rejected without mutation (no fatal error), and a move by color 2 when it is
color 1's turn leaves the game state exactly unchanged. -/
theorem applyMove_illegal_noop_witness :
    applyMove newGameBoard 3 3 1 = (newGameBoard, false) ∧
    applyMove newGameBoard (-1) 0 1 = (newGameBoard, false) ∧
    placeDisk ⟨newGameBoard, 1⟩ 2 4 2 = (⟨newGameBoard, 1⟩, false) :=
  ⟨(applyMove_illegal_noop newGameBoard 3 3 1 ⟨newGameBoard, 1⟩).2.1 (by decide),
   (applyMove_illegal_noop newGameBoard (-1) 0 1 ⟨newGameBoard, 1⟩).2.2.2.1 (by decide),
   (applyMove_illegal_noop newGameBoard 2 4 2 ⟨newGameBoard, 1⟩).2.2.2.2 (by decide)⟩

/-- **C3**: after every legal move, the turn passes to the other color if
that color has at least one legal move, otherwise the same color moves again
(the pass rule); and `gameOver` is true exactly when neither color has any
legal move remaining, a full board being a special case. -/
theorem turn_pass_rule_and_gameOver (g : GameState) (x y : Int)
    (h : (placeDisk g x y g.turn).2 = true) :
    ((∃ i j, legalMove (placeDisk g x y g.turn).1.board i j (other g.turn) = true) →
      (placeDisk g x y g.turn).1.turn = other g.turn) ∧
    ((¬ ∃ i j, legalMove (placeDisk g x y g.turn).1.board i j (other g.turn) = true) →
      (placeDisk g x y g.turn).1.turn = g.turn) ∧
    (∀ b : Board, gameOver b = true ↔
      (¬ ∃ i j, legalMove b i j 1 = true) ∧ (¬ ∃ i j, legalMove b i j 2 = true)) ∧
    (∀ b : Board, (∀ i j : Fin 8, b i j ≠ 0) → gameOver b = true) := by
  obtain ⟨hb, ht⟩ := placeDisk_success h
  have hGO : ∀ b : Board, gameOver b = true ↔
      (¬ ∃ i j, legalMove b i j 1 = true) ∧ (¬ ∃ i j, legalMove b i j 2 = true) := by
    intro b
    rw [gameOver, Bool.and_eq_true, Bool.not_eq_true', Bool.not_eq_true',
      ← Bool.not_eq_true, ← Bool.not_eq_true, hasMove_iff, hasMove_iff]
  refine ⟨?_, ?_, hGO, ?_⟩
  · rintro ⟨i, j, hleg⟩
    rw [hb] at hleg
    rw [ht, nextTurn, if_pos ((hasMove_iff _ _).mpr ⟨i, j, hleg⟩)]
  · intro hno
    have hm : hasMove (applyMove g.board x y g.turn).1 (other g.turn) = false := by
      rw [← Bool.not_eq_true, hasMove_iff]
      intro he
      exact hno (hb ▸ he)
    rw [ht, nextTurn, hm]
    simp
  · intro b hfull
    rw [hGO]
    have hnol : ∀ c, ¬ ∃ i j, legalMove b i j c = true := by
      intro c
      rintro ⟨i, j, hleg⟩
      have hR := legalMove_inRange hleg
      have hempty := legalMove_empty hleg
      rw [cell, dif_pos hR] at hempty
      exact hfull _ _ hempty
    exact ⟨hnol 1, hnol 2⟩

/-- Witness for C3: after color 1 plays `(2, 4)` on the fresh board, color 2
has a legal move (at `(2, 3)`), so the turn passes to color 2. -/
theorem turn_pass_rule_and_gameOver_witness :
    (placeDisk (startSoloGame 0) 2 4 (startSoloGame 0).turn).1.turn
      = other (startSoloGame 0).turn :=
  (turn_pass_rule_and_gameOver (startSoloGame 0) 2 4 (by decide)).1 ⟨2, 3, by decide⟩

/-- **C4 counterexample**: the claim puts color 2 at `(3, 3)` of the opening
board, but the canonical opening pinned by the server test suite's
`newGameBoard` has color 1 there. -/
theorem newGameBoard_colors_counterexample :
    (cell newGameBoard 3 3 == 2) = false ∧ cell newGameBoard 3 3 = 1 := by
  decide

/-- **C4 (amended)**: a fresh solo game at difficulty 0 starts from the
canonical opening board with exactly four disks, at `(3,3)` and `(4,4)`
color 1 and at `(3,4)` and `(4,3)` color 2 (the mirror image of the colors
the claim lists), and it is color 1's turn. -/
theorem soloNewGame_opening :
    (startSoloGame 0).board = newGameBoard ∧
    (startSoloGame 0).turn = 1 ∧
    cell newGameBoard 3 3 = 1 ∧ cell newGameBoard 4 4 = 1 ∧
    cell newGameBoard 3 4 = 2 ∧ cell newGameBoard 4 3 = 2 ∧
    countDisks newGameBoard = 4 := by
  decide

/-- **C5 counterexample**: after color 1 places at `(2, 4)` on the fresh
board the total disk count is 5, not 6 as the claim states (a single Othello
move adds exactly one disk to the initial four; the count reaches 6 only
after the AI's answering move). -/
theorem scenarioB_diskCount_counterexample :
    (countDisks scenarioB.1.board == 6) = false ∧
    countDisks scenarioB.1.board = 5 := by
  decide

/-- **C5 (amended)**: when color 1 places a disk at `(2, 4)` on the fresh
opening board, the move is accepted, the resulting board is exactly the
test suite's expected board with `(3, 4)` flipped to color 1, the turn
becomes color 2, and the total disk count becomes 5. -/
theorem scenarioB_amended :
    scenarioB.2 = true ∧
    scenarioB.1.board = expectedBoardB ∧
    cell scenarioB.1.board 3 4 = 1 ∧
    scenarioB.1.turn = 2 ∧
    countDisks scenarioB.1.board = 5 := by
  decide

/-- **C6**: for every inbound payload whose action discriminator is present
(non-empty) but not in the fixed recognized set, decoding fails with the
explicit `unsupportedAction` error (never a silent drop); for every payload
whose discriminator is in the set, decoding selects the message variant
registered for it in `actionToMessage`. -/
theorem unmarshalJSON_discriminator (a : String) :
    (a ≠ "" → actionToMessage a = none →
      unmarshalJSON a = .error (.unsupportedAction a)) ∧
    (∀ v, actionToMessage a = some v → unmarshalJSON a = .ok ⟨a, v⟩) := by
  constructor
  · intro h hnone
    simp [unmarshalJSON, h, hnone]
  · intro v hv
    have h : a ≠ "" := by
      intro he
      subst he
      rw [show actionToMessage "" = none from rfl] at hv
      simp at hv
    simp [unmarshalJSON, h, hv]

/-- Witness for C6: the unknown action `"foo"` is rejected with the
`unsupportedAction` error, and `"placeDisk"` selects the registered
`PlaceDiskMessage` variant. -/
theorem unmarshalJSON_discriminator_witness :
    unmarshalJSON "foo" = .error (.unsupportedAction "foo") ∧
    unmarshalJSON "placeDisk" = .ok ⟨"placeDisk", .placeDiskMessage⟩ :=
  ⟨(unmarshalJSON_discriminator "foo").1 (by decide) rfl,
   (unmarshalJSON_discriminator "placeDisk").2 .placeDiskMessage rfl⟩

/-- **C7**: in a solo game, after a successful `placeDisk` by the human that
makes it the AI's turn, the dispatcher emits exactly two outbound board
updates, both to the human's connection, in order: first the board resulting
from the human's move, then the board resulting from the AI's move. -/
theorem soloPlaceDisk_two_updates (s : SoloSession) (x y : Int)
    (h1 : (placeDisk s.state x y humanColor).2 = true)
    (h2 : (placeDisk s.state x y humanColor).1.turn = aiColor) :
    (handleSoloPlaceDisk s x y).2 =
      [⟨s.connID, (placeDisk s.state x y humanColor).1.board,
        (placeDisk s.state x y humanColor).1.turn⟩,
       ⟨s.connID, (aiStep (placeDisk s.state x y humanColor).1).board,
        (aiStep (placeDisk s.state x y humanColor).1).turn⟩] := by
  obtain ⟨hb, ht⟩ := placeDisk_success h1
  have hmv : hasMove (placeDisk s.state x y humanColor).1.board aiColor = true := by
    rw [ht] at h2
    rw [hb]
    by_cases hm : hasMove (applyMove s.state.board x y humanColor).1 (other humanColor) = true
    · exact hm
    · rw [nextTurn, if_neg hm] at h2
      exact absurd h2 (by decide)
  rw [hasMove] at hmv
  obtain ⟨m, hm⟩ := Option.isSome_iff_exists.mp hmv
  simp only [handleSoloPlaceDisk, h1, h2, aiStep, hm]
  simp

/-- Witness for C7: the scenario-B human move at `(2, 4)` yields exactly the
two ordered board updates to the human's connection. -/
theorem soloPlaceDisk_two_updates_witness :
    (handleSoloPlaceDisk ⟨"c1", startSoloGame 0⟩ 2 4).2 =
      [⟨"c1", (placeDisk (startSoloGame 0) 2 4 humanColor).1.board,
        (placeDisk (startSoloGame 0) 2 4 humanColor).1.turn⟩,
       ⟨"c1", (aiStep (placeDisk (startSoloGame 0) 2 4 humanColor).1).board,
        (aiStep (placeDisk (startSoloGame 0) 2 4 humanColor).1).turn⟩] :=
  soloPlaceDisk_two_updates ⟨"c1", startSoloGame 0⟩ 2 4 (by decide) (by decide)

/-- **C8**: when a host creates a multiplayer game and an opponent then
joins it, both connections receive an update-board message carrying the
identical board and the identical whose-turn value. -/
theorem mpJoin_notifies_both (h j : String) :
    (handleJoin (hostGame h) j).2 =
      [⟨h, newGameBoard, 1⟩, ⟨j, newGameBoard, 1⟩] ∧
    ∃ m1 m2, (handleJoin (hostGame h) j).2 = [m1, m2] ∧
      m1.connID = h ∧ m2.connID = j ∧
      m1.board = m2.board ∧ m1.player = m2.player := by
  have he : (handleJoin (hostGame h) j).2 =
      [⟨h, newGameBoard, 1⟩, ⟨j, newGameBoard, 1⟩] := by
    simp [handleJoin, hostGame]
  exact ⟨he, ⟨_, _, he, rfl, rfl, rfl, rfl⟩⟩

/-- **C9**: a payload whose `"action"` field is missing or empty (Go's zero
value for the field is the empty string) fails decoding with the explicit
`invalidMessage` error even when the rest of the payload is well-formed, and
a successful decode never yields an `AnyMessage` with an empty action. -/
theorem unmarshalJSON_emptyAction (a : String) (m : AnyMessage) :
    unmarshalJSON "" = .error .invalidMessage ∧
    (unmarshalJSON a = .ok m → m.action ≠ "") := by
  refine ⟨rfl, ?_⟩
  intro h
  by_cases he : a = ""
  · subst he
    simp [unmarshalJSON] at h
  · cases hv : actionToMessage a with
    | none => simp [unmarshalJSON, he, hv] at h
    | some v =>
      simp only [unmarshalJSON, if_neg he, hv] at h
      cases h
      exact he

/-- Witness for C9: decoding the well-formed action `"hello"` succeeds and
the decoded action is non-empty. -/
theorem unmarshalJSON_emptyAction_witness :
    unmarshalJSON "" = .error .invalidMessage ∧
    (AnyMessage.mk "hello" .baseMessage).action ≠ "" :=
  ⟨(unmarshalJSON_emptyAction "hello" ⟨"hello", .baseMessage⟩).1,
   (unmarshalJSON_emptyAction "hello" ⟨"hello", .baseMessage⟩).2 rfl⟩

/-- **C10**: for a local player of color 1 or 2, the client scene's
`Game.Tick` returns true (advancing the confetti) if and only if the board
is in a game-over state and the local player's disk count is at least the
opponent's; in particular, on a tied final score both players see the
victory confetti. -/
theorem tick_confetti_iff (g : GameScene) (hp : g.player = 1 ∨ g.player = 2) :
    (tick g = true ↔ (gameOver g.board = true ∧ myScore g ≥ oppScore g)) ∧
    (∀ b : Board, gameOver b = true → (keepScore b).1 = (keepScore b).2 →
      tick ⟨1, b⟩ = true ∧ tick ⟨2, b⟩ = true) := by
  constructor
  · cases hgo : gameOver g.board with
    | false => simp [tick, hgo]
    | true =>
      rcases hp with hp | hp <;>
        · simp only [tick, myScore, oppScore, hgo, hp]
          by_cases hs : (keepScore g.board).2 > (keepScore g.board).1 <;>
            simp [hs] <;> omega
  · intro b hg heq
    constructor <;> simp [tick, hg, heq]

/-- Witness for C10: on a full tied board (32 disks each) both players'
scenes report the win. -/
theorem tick_confetti_iff_witness :
    tick ⟨1, tieBoard⟩ = true ∧ tick ⟨2, tieBoard⟩ = true :=
  (tick_confetti_iff ⟨1, tieBoard⟩ (Or.inl rfl)).2 tieBoard (by decide) (by decide)
